import Mathlib

/-!
Verification development for the `pi-bench` microbenchmarking harness.

The definitions below are shallow embeddings of the C sources:
  * `src/stats.h`            — integer statistics (`mean`, `insertion_sort`, `median`, …)
  * `src/include/stats.h`    — generic statistics (`mean`, `selection_sort`, `median`, …)
  * `src/include/bench.h`    — runner loops, isolation/signal handling, cache counters
  * `src/include/data_processing.h` — `calculate_stats`, `print_results`, `to_csv`

Machine `uint64_t` values are modelled as `ℕ` (with explicit `% 2^64` where the
code relies on wrap-around), `long long` as `ℤ`, and C `double` arithmetic as
exact `ℚ` arithmetic.  Code that performs an out-of-bounds array read (undefined
behavior) is modelled as returning `none`.
-/

namespace PiBench

open List

/-! ### Selection sort

`src/include/stats.h` lines 37-51 define the `selection_sort` routine: for each
outer index `_i` it scans `_j` over `(_i, size)` keeping the index of the first
strictly smallest element seen, then swaps positions `_i` and `_smallest_idx`.
`src/stats.h` lines 40-53 define the identical algorithm as a function (named
`insertion_sort` there, although its doc comment correctly calls it selection
sort).  We model the array as a `List` and one outer iteration as an operation
on the still-unsorted suffix: iteration `_i` of the C loop only reads and
writes indices `≥ _i`, so the processed prefix can be split off as the list of
already-emitted heads. -/

/-- Inner loop of the sort (stats.h lines 41-47 resp. 43-47): starting from
`best = i`, scan `j` over `(i, length)` and move `best` to `j` whenever
`data[j] < data[best]` (strict comparison, so the first occurrence of the
minimum wins). -/
def smallest_idx {α : Type*} [LinearOrder α] [Inhabited α] (data : List α) (i : ℕ) : ℕ :=
  (List.range' (i + 1) (data.length - (i + 1))).foldl
    (fun best j => if data.getD j default < data.getD best default then j else best) i

/-- The swap of stats.h lines 49-51 (resp. 48-51) at `i = 0`:
`tmp = data[i]; data[i] = data[smallest_idx]; data[smallest_idx] = tmp`. -/
def swap0 {α : Type*} [Inhabited α] (data : List α) (m : ℕ) : List α :=
  (data.set 0 (data.getD m default)).set m (data.getD 0 default)

/-- One outer-loop iteration acting on the unsorted suffix: find the first
index of the minimum and swap it to the front. -/
def select_swap {α : Type*} [LinearOrder α] [Inhabited α] (data : List α) : List α :=
  swap0 data (smallest_idx data 0)

/-- The outer loop.  The fuel argument counts the remaining outer iterations;
the C loop runs exactly `size` times, once per element of the remaining
suffix. -/
def selection_sort_go {α : Type*} [LinearOrder α] [Inhabited α] : ℕ → List α → List α
  | 0, data => data
  | n + 1, data =>
    match select_swap data with
    | [] => []
    | y :: ys => y :: selection_sort_go n ys

/-- In-place selection sort, `src/include/stats.h` lines 37-51: the value of
the array after the routine has run. -/
def selection_sort {α : Type*} [LinearOrder α] [Inhabited α] (data : List α) : List α :=
  selection_sort_go data.length data

/-- `src/stats.h` lines 40-53: the same algorithm on `uint64_t` arrays, named
`insertion_sort` in that header (its doc comment correctly describes selection
sort). -/
def insertion_sort (data : List ℕ) : List ℕ :=
  selection_sort data

/-! #### Correctness of the embedded selection sort -/

/-- Specification of the inner fold: the returned index points at a value no
larger than the starting index's value and than every scanned value, and it is
either the starting index or one of the scanned indices. -/
theorem foldl_min_spec {α : Type*} [LinearOrder α] (v : ℕ → α) (js : List ℕ) (b : ℕ) :
    (v (js.foldl (fun best j => if v j < v best then j else best) b) ≤ v b ∧
      ∀ j ∈ js, v (js.foldl (fun best j => if v j < v best then j else best) b) ≤ v j) ∧
      (js.foldl (fun best j => if v j < v best then j else best) b = b ∨
        js.foldl (fun best j => if v j < v best then j else best) b ∈ js) := by
  induction js generalizing b with
  | nil => simp
  | cons j rest ih =>
    simp only [List.foldl_cons]
    rcases ih (if v j < v b then j else b) with ⟨⟨h₁, h₂⟩, h₃⟩
    refine ⟨⟨?_, ?_⟩, ?_⟩
    · rcases lt_or_le (v j) (v b) with h | h
      · exact le_trans (by simpa [if_pos h] using h₁) h.le
      · simpa [if_neg (not_lt.mpr h)] using h₁
    · intro k hk
      rcases List.mem_cons.mp hk with rfl | hk
      · rcases lt_or_le (v k) (v b) with h | h
        · simpa [if_pos h] using h₁
        · exact le_trans (by simpa [if_neg (not_lt.mpr h)] using h₁) h
      · exact h₂ k hk
    · rcases h₃ with h | h
      · rw [h]; split
        · exact Or.inr (List.mem_cons_self _ _)
        · exact Or.inl rfl
      · exact Or.inr (List.mem_cons_of_mem _ h)

theorem smallest_idx_zero_eq {α : Type*} [LinearOrder α] [Inhabited α] (data : List α) :
    smallest_idx data 0 =
      (List.range' 1 (data.length - 1)).foldl
        (fun best j => if data.getD j default < data.getD best default then j else best) 0 :=
  rfl

theorem smallest_idx_lt {α : Type*} [LinearOrder α] [Inhabited α]
    (data : List α) (hd : data ≠ []) :
    smallest_idx data 0 < data.length := by
  have hlen : 0 < data.length := List.length_pos.mpr hd
  rw [smallest_idx_zero_eq]
  rcases (foldl_min_spec (fun j => data.getD j default)
      (List.range' 1 (data.length - 1)) 0).2 with h | h
  · rw [h]; exact hlen
  · have := List.mem_range'_1.mp h
    omega

theorem smallest_idx_le {α : Type*} [LinearOrder α] [Inhabited α]
    (data : List α) (k : ℕ) (hk : k < data.length) :
    data.getD (smallest_idx data 0) default ≤ data.getD k default := by
  rw [smallest_idx_zero_eq]
  rcases (foldl_min_spec (fun j => data.getD j default)
      (List.range' 1 (data.length - 1)) 0).1 with ⟨h₁, h₂⟩
  rcases Nat.eq_zero_or_pos k with rfl | hkpos
  · exact h₁
  · exact h₂ k (List.mem_range'_1.mpr ⟨hkpos, by omega⟩)

/-- Replacing the element at index `i` by `a` and moving the old element to the
front is a permutation of consing `a` instead. -/
theorem cons_set_perm {α : Type*} (d a : α) :
    ∀ (t : List α) (i : ℕ), i < t.length → (t.getD i d :: t.set i a) ~ (a :: t) := by
  intro t
  induction t with
  | nil => intro i hi; simp at hi
  | cons c t' ih =>
    intro i hi
    rcases i with _ | i
    · simpa using List.Perm.swap a c t'
    · have hi' : i < t'.length := by simpa using hi
      calc t'.getD i d :: (c :: t').set (i + 1) a
          = t'.getD i d :: c :: t'.set i a := by simp
        _ ~ c :: t'.getD i d :: t'.set i a := List.Perm.swap c (t'.getD i d) _
        _ ~ c :: (a :: t') := (ih i hi').cons c
        _ ~ a :: c :: t' := List.Perm.swap a c t'

theorem swap0_perm {α : Type*} [Inhabited α] (data : List α) (m : ℕ)
    (hm : m < data.length) :
    swap0 data m ~ data := by
  rcases data with _ | ⟨x, xs⟩
  · simp at hm
  · rcases m with _ | i
    · simp [swap0]
    · have hi : i < xs.length := by simpa using hm
      have : swap0 (x :: xs) (i + 1) = xs.getD i default :: xs.set i x := by
        simp [swap0]
      rw [this]
      exact cons_set_perm default x xs i hi

theorem swap0_length {α : Type*} [Inhabited α] (data : List α) (m : ℕ) :
    (swap0 data m).length = data.length := by
  simp [swap0]

theorem select_swap_perm {α : Type*} [LinearOrder α] [Inhabited α] (data : List α) :
    select_swap data ~ data := by
  rcases eq_or_ne data [] with rfl | hd
  · simp [select_swap, swap0, smallest_idx]
  · exact swap0_perm data _ (smallest_idx_lt data hd)

theorem select_swap_length {α : Type*} [LinearOrder α] [Inhabited α] (data : List α) :
    (select_swap data).length = data.length := by
  simp [select_swap, swap0_length]

theorem select_swap_head_le {α : Type*} [LinearOrder α] [Inhabited α]
    (data : List α) (hd : data ≠ []) :
    ∀ b ∈ data, (select_swap data).headD default ≤ b := by
  intro b hb
  have hm : smallest_idx data 0 < data.length := smallest_idx_lt data hd
  have hhead : (select_swap data).headD default = data.getD (smallest_idx data 0) default := by
    rw [select_swap, swap0]
    rcases data with _ | ⟨a, t⟩
    · simp at hd
    · rcases h : smallest_idx (a :: t) 0 with _ | i
      · simp
      · simp
  rw [hhead]
  rcases List.get_of_mem hb with ⟨⟨k, hk⟩, rfl⟩
  have : data.get ⟨k, hk⟩ = data.getD k default := by
    rw [List.getD_eq_getElem data default hk]
    simp
  rw [this]
  exact smallest_idx_le data k hk

theorem selection_sort_go_perm {α : Type*} [LinearOrder α] [Inhabited α] :
    ∀ (n : ℕ) (data : List α), data.length = n → selection_sort_go n data ~ data := by
  intro n
  induction n with
  | zero => intro data h; simp [selection_sort_go]
  | succ n ih =>
    intro data h
    have hlen : (select_swap data).length = n + 1 := by rw [select_swap_length, h]
    rcases hsw : select_swap data with _ | ⟨y, ys⟩
    · rw [hsw] at hlen; simp at hlen
    · have hys : ys.length = n := by
        rw [hsw] at hlen; simpa using hlen
      have hperm : (y :: ys) ~ data := hsw ▸ select_swap_perm data
      calc selection_sort_go (n + 1) data
          = y :: selection_sort_go n ys := by rw [selection_sort_go, hsw]
        _ ~ y :: ys := (ih ys hys).cons y
        _ ~ data := hperm

theorem selection_sort_go_sorted {α : Type*} [LinearOrder α] [Inhabited α] :
    ∀ (n : ℕ) (data : List α), data.length = n →
      (selection_sort_go n data).Sorted (· ≤ ·) := by
  intro n
  induction n with
  | zero =>
    intro data h
    rw [List.length_eq_zero.mp h]
    simp [selection_sort_go]
  | succ n ih =>
    intro data h
    have hd : data ≠ [] := by
      intro hnil; rw [hnil] at h; simp at h
    have hlen : (select_swap data).length = n + 1 := by rw [select_swap_length, h]
    rcases hsw : select_swap data with _ | ⟨y, ys⟩
    · rw [hsw] at hlen; simp at hlen
    · have hys : ys.length = n := by
        rw [hsw] at hlen; simpa using hlen
      rw [selection_sort_go, hsw]
      refine List.sorted_cons.mpr ⟨?_, ih ys hys⟩
      intro b hb
      have hb' : b ∈ ys := (selection_sort_go_perm n ys hys).mem_iff.mp hb
      have hbdata : b ∈ data :=
        (select_swap_perm data).mem_iff.mp (hsw ▸ List.mem_cons_of_mem y hb')
      have := select_swap_head_le data hd b hbdata
      rw [hsw] at this
      simpa using this

theorem selection_sort_perm {α : Type*} [LinearOrder α] [Inhabited α] (data : List α) :
    selection_sort data ~ data :=
  selection_sort_go_perm data.length data rfl

theorem selection_sort_sorted {α : Type*} [LinearOrder α] [Inhabited α] (data : List α) :
    (selection_sort data).Sorted (· ≤ ·) :=
  selection_sort_go_sorted data.length data rfl

theorem selection_sort_ne_nil {α : Type*} [LinearOrder α] [Inhabited α]
    (data : List α) (hd : data ≠ []) : selection_sort data ≠ [] := by
  intro h
  exact hd (List.Perm.eq_nil ((selection_sort_perm data).symm.trans (h ▸ List.Perm.refl _)))

/-! ### Statistics over samples

`src/include/stats.h` holds the generic statistics used by
`calculate_stats` (`data_processing.h` includes `./stats.h`); `src/stats.h`
holds an older `uint64_t`-only variant of the same routines.  Doubles are
modelled as exact rationals; `uint64_t` arithmetic carries an explicit
`% 2^64` where the code can wrap. -/

/-- `src/include/stats.h` lines 18-24 (`mean`): sum the elements into a
`double` accumulator and divide by the size; `0` when the size is `0`. -/
def mean (data : List ℚ) : ℚ :=
  if 0 < data.length then data.sum / data.length else 0

/-- `src/include/stats.h` lines 65-80 (`median`) instantiated at `double`:
sort the array in place with the supplied sort (always `selection_sort` at the
call sites), take `_median_idx = size / 2`; for even sizes average
`data[_median_idx - 1]` and `data[_median_idx]`, else take `data[_median_idx]`;
result `0` for an empty array. -/
def median (data : List ℚ) : ℚ :=
  if 0 < data.length then
    let sorted := selection_sort data
    let median_idx := data.length / 2
    if data.length % 2 = 0 then
      (sorted.getD median_idx default + sorted.getD (median_idx - 1) default) / 2
    else
      sorted.getD median_idx default
  else 0

/-- `src/include/stats.h` lines 65-80 (`median`) instantiated at `uint64_t`
(the `samples` array): same index rule, with the sum of the two centre
elements wrapping modulo `2^64` and the average truncated by integer
division. -/
def median_u64 (data : List ℕ) : ℕ :=
  if 0 < data.length then
    let sorted := selection_sort data
    let median_idx := data.length / 2
    if data.length % 2 = 0 then
      ((sorted.getD median_idx default + sorted.getD (median_idx - 1) default) % 2 ^ 64) / 2
    else
      sorted.getD median_idx default
  else 0

/-- Radicand of `src/include/stats.h` lines 94-108 (`stddev`): the population
variance `Σ (xᵢ - mean)² / n`, with guard `0` for `n = 0`.  The C routine
returns `sqrt` of this value, which is not representable in `ℚ`, so the
embedding carries the radicand; the routine's result is zero exactly when this
radicand is zero.  (The body coincides with `var`, lines 121-134.) -/
def stddev_sq (data : List ℚ) : ℚ :=
  if 0 < data.length then
    (data.map (fun x => (x - mean data) * (x - mean data))).sum / data.length
  else 0

namespace StatsH

/-- `src/stats.h` lines 16-27 (`mean`): integer mean of a `uint64_t` array,
accumulating modulo `2^64` and using integer division; early-returns `0` when
`size == 0` — no division is attempted. -/
def mean (data : List ℕ) : ℕ :=
  if data.length = 0 then 0 else (data.sum % 2 ^ 64) / data.length

/-- `src/stats.h` lines 66-86 (`median`): returns `0` for `size == 0`,
otherwise sorts in place (via the header's `insertion_sort`) and takes
`median_idx = size / 2`.  For even sizes it averages `data[median_idx]` and
`data[median_idx + 1]` — note the indices, one past the two centre elements —
in `uint64_t` arithmetic.  For `size == 2` the read `data[median_idx + 1]`
is out of bounds (undefined behavior), modelled as `none`. -/
def median (data : List ℕ) : Option ℕ :=
  if data.length = 0 then some 0
  else
    let sorted := insertion_sort data
    let median_idx := data.length / 2
    if data.length % 2 = 0 then
      match sorted[median_idx]?, sorted[median_idx + 1]? with
      | some lower, some upper => some (((upper + lower) % 2 ^ 64) / 2)
      | _, _ => none
    else
      sorted[median_idx]?

end StatsH

/-! ### Aggregation: `calculate_stats` -/

/-- The per-run result record, `benchmark_result_t` as used by
`data_processing.h`: the two parallel sample sequences plus the aggregated
statistics.  The `stddev_*_sq` fields carry the radicand of the C `stddev`
fields (see `stddev_sq`). -/
structure BenchmarkResult where
  samples : List ℕ
  cache_miss_rates : List ℚ
  median_time : ℕ
  mean_time : ℚ
  stddev_time_sq : ℚ
  min_time : ℕ
  max_time : ℕ
  median_cmr : ℚ
  mean_cmr : ℚ
  stddev_cmr_sq : ℚ
  min_cmr : ℚ
  max_cmr : ℚ
  is_cycles : Bool
  deriving DecidableEq

/-- The min/max scan of `calculate_stats` (`data_processing.h` lines 45-60):
`min = max = data[0]`, then for each later element
`if (v > max) max = v; else if (v < min) min = v`.  The initial `data[0]` read
happens unconditionally, also for `size == 0`, where it is out of bounds:
that case is modelled as `none`. -/
def minmax_scan {α : Type*} [LinearOrder α] : List α → Option (α × α)
  | [] => none
  | x :: xs =>
      some (xs.foldl
        (fun mm v => if v > mm.2 then (mm.1, v) else if v < mm.1 then (v, mm.2) else mm)
        (x, x))

/-- `calculate_stats` (`data_processing.h` lines 33-67).  The `median` calls
sort both arrays **in place** (`sort((data), (size))` mutates the caller's
array — no copy is taken), so the post-state carries the sorted sequences and
the subsequent mean/stddev computations and the min/max scan run over the
sorted data.  The `size` argument equals the length of both arrays at every
call site (`main.c:91-93`, `utils.h:179`) and is identified with them here.
The scan's unconditional `samples[0]` / `cmrs[0]` reads are out of bounds when
the arrays are empty; that undefined behavior is modelled as `none`. -/
def calculate_stats (results : BenchmarkResult) : Option BenchmarkResult :=
  let samples := selection_sort results.samples
  let cmrs := selection_sort results.cache_miss_rates
  match minmax_scan samples, minmax_scan cmrs with
  | some mmT, some mmC =>
      some { results with
        samples := samples
        cache_miss_rates := cmrs
        median_time := median_u64 results.samples
        mean_time := mean (samples.map (fun x => (x : ℚ)))
        stddev_time_sq := stddev_sq (samples.map (fun x => (x : ℚ)))
        median_cmr := median results.cache_miss_rates
        mean_cmr := mean cmrs
        stddev_cmr_sq := stddev_sq cmrs
        min_time := mmT.1
        max_time := mmT.2
        min_cmr := mmC.1
        max_cmr := mmC.2 }
  | _, _ => none

theorem minmax_scan_isSome {α : Type*} [LinearOrder α] (l : List α) (hl : l ≠ []) :
    (minmax_scan l).isSome := by
  rcases l with _ | ⟨x, xs⟩
  · simp at hl
  · simp [minmax_scan]

/-! ### Isolation and signal state (`src/include/bench.h`)

The runner macros mutate per-thread and per-core OS state through syscalls;
the spec treats these as best-effort, so the embedding models each syscall as
succeeding.  Signals are the 64 Linux signal numbers, as `Fin 64`. -/

/-- The cpufreq governor values the code writes. -/
inductive GovernorMode
  | performance
  | ondemand
  deriving DecidableEq

/-- The state mutated by the runner macros: the calling thread's
blocked-signal mask, its CPU-affinity mask, its scheduler policy and priority,
and the per-core frequency governor (`none` = never written by this program). -/
structure SysState where
  sigmask : Finset (Fin 64)
  affinity : Finset ℕ
  policy : ℤ
  priority : ℤ
  governor : ℕ → Option GovernorMode

/-- Value of the Linux `SCHED_FIFO` scheduling-policy constant. -/
def SCHED_FIFO : ℤ := 1

/-- `bench.h` lines 631-635 (`block_all_signals_in_this_thread`):
`sigfillset` then `pthread_sigmask(SIG_BLOCK, &set, NULL)` — adds every
signal to the thread's blocked mask. -/
def block_all_signals_in_this_thread (s : SysState) : SysState :=
  { s with sigmask := s.sigmask ∪ Finset.univ }

/-- `bench.h` lines 646-650 (`unblock_all_signals_in_this_thread`):
`sigemptyset` then `pthread_sigmask(SIG_UNBLOCK, &set, NULL)` — removes the
members of the **empty** set from the blocked mask, i.e. changes nothing. -/
def unblock_all_signals_in_this_thread (s : SysState) : SysState :=
  { s with sigmask := s.sigmask \ (∅ : Finset (Fin 64)) }

/-- `bench.h` lines 492-499 (`disable_cpu_scaling`): writes `performance` into
the scaling governor of `core`. -/
def disable_cpu_scaling (core : ℕ) (s : SysState) : SysState :=
  { s with governor := Function.update s.governor core (some GovernorMode.performance) }

/-- `bench.h` lines 517-524 (`enable_cpu_scaling`): writes `ondemand` into the
scaling governor of `core` unconditionally. -/
def enable_cpu_scaling (core : ℕ) (s : SysState) : SysState :=
  { s with governor := Function.update s.governor core (some GovernorMode.ondemand) }

/-- `sched_setaffinity(0, sizeof(cpu_set_t), &mask)`: replaces the thread's
affinity mask. -/
def sched_setaffinity (mask : Finset ℕ) (s : SysState) : SysState :=
  { s with affinity := mask }

/-- `sched_setscheduler(0, policy, &sp)`: replaces policy and priority. -/
def sched_setscheduler (policy priority : ℤ) (s : SysState) : SysState :=
  { s with policy := policy, priority := priority }

/-- System-state effect of `BENCHMARK_FUNC_PINNED` (`bench.h` lines 99-196),
in source order: set the governor of `core` to performance (line 117), save
the current affinity mask (125), pin the thread to `core` (128-133), save the
scheduler policy and priority (138-140), escalate to `SCHED_FIFO` priority 99
(143-144), block all signals (148), run the warmup and timed loops (no
system-state effect), set the governor to ondemand (184), restore the saved
affinity mask (187), restore the saved policy and priority (190), and finally
— while printing `Unblocking signals in current thread!` — call
`block_all_signals_in_this_thread` a **second** time (194). -/
def benchmark_func_pinned_sys (core : ℕ) (s : SysState) : SysState :=
  let s1 := disable_cpu_scaling core s
  let old_set := s1.affinity
  let s2 := sched_setaffinity {core} s1
  let old_policy := s2.policy
  let old_sp := s2.priority
  let s3 := sched_setscheduler SCHED_FIFO 99 s2
  let s4 := block_all_signals_in_this_thread s3
  let s5 := enable_cpu_scaling core s4
  let s6 := sched_setaffinity old_set s5
  let s7 := sched_setscheduler old_policy old_sp s6
  block_all_signals_in_this_thread s7

/-- System-state effect of `BENCHMARK_FUNC` (`bench.h` lines 215-269): block
all signals (233), run the loops, and at the end — printing `Unblocking
signals in current thread!` — block all signals **again** (266).  Affinity,
scheduler and governor are never touched. -/
def benchmark_func_sys (s : SysState) : SysState :=
  block_all_signals_in_this_thread (block_all_signals_in_this_thread s)

/-- `BENCHMARK_FUNC_PINNED_CYCLES` (`bench.h` lines 310-403) performs exactly
the same sequence of system-state steps as `BENCHMARK_FUNC_PINNED`
(lines 328, 336, 342, 349-355, 359, 391, 394, 397, 401). -/
def benchmark_func_pinned_cycles_sys (core : ℕ) (s : SysState) : SysState :=
  benchmark_func_pinned_sys core s

/-- `BENCHMARK_FUNC_CYCLES` (`bench.h` lines 422-475) performs exactly the
same system-state steps as `BENCHMARK_FUNC` (lines 440, 472). -/
def benchmark_func_cycles_sys (s : SysState) : SysState :=
  benchmark_func_sys s

/-! ### Runner data effects (`src/include/bench.h`) -/

/-- `benchmark_t` (`bench.h` lines 67-74), together with the `validate` flag
that `data_processing.h` and `utils.h` use on it. -/
structure Benchmark where
  name : String
  warmup_iterations : ℕ
  timed_iterations : ℕ
  results : Option BenchmarkResult
  is_baseline : Bool
  validate : Bool
  is_valid : Bool
  deriving DecidableEq

/-- `uint64_t` subtraction `a - b`, wrapping modulo `2^64` (valid model for
`a, b < 2^64`). -/
def u64_sub (a b : ℕ) : ℕ :=
  (a + 2 ^ 64 - b) % 2 ^ 64

/-- `get_cycle_count_overhead` (`bench.h` lines 581-585): the wrapped
difference of two back-to-back cycle-counter reads `c0`, `c1`. -/
def get_cycle_count_overhead (c0 c1 : ℕ) : ℕ :=
  u64_sub c1 c0

/-- Data effect of `BENCHMARK_FUNC` (`bench.h` lines 215-269) on the result
record, where `lat i` is the wall-clock latency measured for iteration `i` in
microseconds (lines 247-255): the freshly filled `samples` array is stored and
`is_cycles` is cleared (263-264).  The macro takes no cache measurements and
never writes `cache_miss_rates`. -/
def benchmark_func_run (lat : ℕ → ℕ) (b : Benchmark) (r : BenchmarkResult) :
    BenchmarkResult :=
  { r with samples := (List.range b.timed_iterations).map lat, is_cycles := false }

/-- Data effect of `BENCHMARK_FUNC_PINNED` (`bench.h` lines 161-182): per
iteration it measures the wall-clock latency into `samples[i]` and the
cache-miss rate `mr i` into `cache_miss_rates[i]` (line 172) — but that
`cache_miss_rates` is a **caller-scope** variable the macro never declares and
never connects to `benchmark->results`; the macro stores only `samples` and
`is_cycles = false` into the result (181-182).  The second component of the
returned pair is that external array; `results->cache_miss_rates` stays
untouched. -/
def benchmark_func_pinned_run (lat : ℕ → ℕ) (mr : ℕ → ℚ) (b : Benchmark)
    (r : BenchmarkResult) : BenchmarkResult × List ℚ :=
  ({ r with samples := (List.range b.timed_iterations).map lat, is_cycles := false },
    (List.range b.timed_iterations).map mr)

/-- Data effect of `BENCHMARK_FUNC_CYCLES` (`bench.h` lines 454-470), where
`cs i` and `ce i` are the cycle-counter readings before and after iteration
`i`'s call: `samples[i] = (end - start) - cycle_count_overhead` in `uint64_t`
arithmetic (line 460), and `is_cycles` is set (470).  No cache measurements
are taken and `cache_miss_rates` is never written. -/
def benchmark_func_cycles_run (cs ce : ℕ → ℕ) (overhead : ℕ) (b : Benchmark)
    (r : BenchmarkResult) : BenchmarkResult :=
  { r with
    samples := (List.range b.timed_iterations).map
      (fun i => u64_sub (u64_sub (ce i) (cs i)) overhead),
    is_cycles := true }

/-- `BENCHMARK_FUNC_PINNED_CYCLES` (`bench.h` lines 373-389) stores the same
samples expression (line 379) as `BENCHMARK_FUNC_CYCLES`. -/
def benchmark_func_pinned_cycles_run (cs ce : ℕ → ℕ) (overhead : ℕ) (b : Benchmark)
    (r : BenchmarkResult) : BenchmarkResult :=
  benchmark_func_cycles_run cs ce overhead b r

/-! ### Cache-miss counter (`src/include/bench.h`) -/

/-- `stop_l1_cache_miss_counter` (`bench.h` lines 729-749), reduced to the
arithmetic on the two counter values it reads into `long long` variables
(hence `ℤ`): `0.0` when `refs == 0`, otherwise `100.0 * misses / refs`
(line 748), with the `double` arithmetic modelled exactly in `ℚ`. -/
def stop_l1_cache_miss_counter (refs misses : ℤ) : ℚ :=
  if refs = 0 then 0 else 100 * (misses : ℚ) / (refs : ℚ)

/-! ### Reporting (`src/include/data_processing.h`) -/

/-- One printed line of the comparative summary of `print_results`
(`data_processing.h` lines 179-190). -/
structure SummaryEntry where
  name : String
  median_time : ℕ
  relative_performance : ℚ
  speedup : Option ℚ
  deriving DecidableEq

/-- The per-benchmark body of the summary loop of `print_results`
(`data_processing.h` lines 165-191), given the designated baseline's median
latency: entries without results or not marked valid are skipped (line 167);
the baseline reports relative performance `1.0` (lines 184-186); every other
entry reports `relative_performance = median_time / baseline_median`
(lines 175-176) and, when that ratio is below `1.0`, additionally the inverse
ratio `1.0 / relative_performance` as its `faster` speedup (lines 177-183). -/
def summary_line (b : Benchmark) (baseline_median : ℕ) : Option SummaryEntry :=
  match b.results with
  | none => none
  | some data =>
      if b.is_valid = false then none
      else if b.is_baseline then
        some ⟨b.name, data.median_time, 1, none⟩
      else
        let rel : ℚ := (data.median_time : ℚ) / (baseline_median : ℚ)
        if rel < 1 then some ⟨b.name, data.median_time, rel, some (1 / rel)⟩
        else some ⟨b.name, data.median_time, rel, none⟩

/-! ### Export (`src/include/data_processing.h`, `to_csv`) -/

/-- The value denoted by printf's `%0.2f`: the double rounded to two decimal
places (round-half-up model of the decimal conversion; no claim below depends
on the tie rule). -/
def fmt2 (q : ℚ) : ℚ :=
  (⌊q * 100 + 1 / 2⌋ : ℚ) / 100

/-- One exported record of `to_csv` (`data_processing.h` lines 199-253): the
commented header fields (lines 239-245) and, per timed iteration, the line
`samples[i],cmr[i]` printed with `"%llu,%0.2f\n"` (lines 247-249) — the
latency exactly, the miss rate rounded to two decimals.  Re-parsing a line
recovers exactly the pair it denotes, so `rows` models the re-parsed file
body. -/
structure CsvRecord where
  name : String
  timing_format : String
  valid : String
  warmup_runs : ℕ
  timed_runs : ℕ
  rows : List (ℕ × ℚ)
  deriving DecidableEq

/-- The record `to_csv` writes for one benchmark whose `results` is `data`
(the code dereferences `benchmark->results` unconditionally). -/
def to_csv_record (b : Benchmark) (data : BenchmarkResult) : CsvRecord :=
  { name := b.name
    timing_format := if data.is_cycles then ("cycles") else ("microseconds")
    valid := if b.validate then (if b.is_valid then ("Yes") else ("No")) else ("Not Validated")
    warmup_runs := b.warmup_iterations
    timed_runs := b.timed_iterations
    rows := (List.range b.timed_iterations).map
      (fun i => (data.samples.getD i 0, fmt2 (data.cache_miss_rates.getD i 0))) }

/-! ### Concrete inputs used by the theorems below -/

/-- An all-empty, all-zero result record: the `size = 0` aggregation input. -/
def emptyResult : BenchmarkResult :=
  { samples := [], cache_miss_rates := []
    median_time := 0, mean_time := 0, stddev_time_sq := 0, min_time := 0, max_time := 0
    median_cmr := 0, mean_cmr := 0, stddev_cmr_sq := 0, min_cmr := 0, max_cmr := 0
    is_cycles := false }

/-- A result record before aggregation: samples `[5,1,4,2,3]`, per-iteration
miss rates `[4, 1, 3, 2, 0]` (in percent). -/
def exampleResult : BenchmarkResult :=
  { emptyResult with samples := [5, 1, 4, 2, 3], cache_miss_rates := [4, 1, 3, 2, 0] }

/-- A result record as left behind by a previous run: two stale miss-rate
entries `[7, 7]`. -/
def staleResult : BenchmarkResult :=
  { emptyResult with samples := [0, 0], cache_miss_rates := [7, 7] }

/-- A benchmark with two timed iterations. -/
def exampleBenchmark : Benchmark :=
  { name := "Example Function", warmup_iterations := 100, timed_iterations := 2
    results := none, is_baseline := true, validate := false, is_valid := false }

/-- Result record of a candidate whose median latency is 50. -/
def candidateData : BenchmarkResult :=
  { emptyResult with median_time := 50 }

/-- A valid non-baseline candidate benchmark with median latency 50. -/
def candidateBenchmark : Benchmark :=
  { name := "Candidate", warmup_iterations := 10, timed_iterations := 5
    results := some candidateData, is_baseline := false, validate := true, is_valid := true }

/-- Result record with a single iteration: latency 7, miss rate `1/3`. -/
def lossyData : BenchmarkResult :=
  { emptyResult with samples := [7], cache_miss_rates := [1/3] }

/-- Benchmark owning `lossyData`, one timed iteration. -/
def lossyBenchmark : Benchmark :=
  { name := "Lossy", warmup_iterations := 0, timed_iterations := 1
    results := some lossyData, is_baseline := true, validate := false, is_valid := false }

/-- An initial thread state: no signals blocked, affinity over cores
`{0,1,2,3}`, the normal scheduler (policy 0, priority 0), governors untouched. -/
def exampleState : SysState :=
  { sigmask := ∅, affinity := {0, 1, 2, 3}, policy := 0, priority := 0
    governor := fun _ => none }

/-! ### Claim C1 -/

/-- C1: the two median variants, evaluated at the claim's examples.  On the
odd-length example both return 3.  On `[1,2,3,4]` the `double` median of
`src/include/stats.h` returns the claimed `2.5`, but the `uint64_t` median of
`src/stats.h` averages `sorted[2] = 3` and `sorted[3] = 4` — indices `n/2` and
`n/2 + 1`, one past the two centre elements — and returns 3, not 2.5,
contradicting the full-sort-plus-index rule and its own doc comment ("the
median is the average of the two middle values"). -/
theorem median_variants_on_examples :
    median ([5, 1, 4, 2, 3] : List ℚ) = 3 ∧
    StatsH.median [5, 1, 4, 2, 3] = some 3 ∧
    median ([1, 2, 3, 4] : List ℚ) = 5 / 2 ∧
    StatsH.median [1, 2, 3, 4] = some 3 ∧
    (5 / 2 : ℚ) ≠ 3 := by
  refine ⟨rfl, by decide, ?_, by decide, by norm_num⟩
  show ((3 : ℚ) + 2) / 2 = 5 / 2
  norm_num

/-- Supporting fact for C1: the `src/include/stats.h` median does satisfy the
full-sort-plus-index rule, for every non-empty `double` sequence: against any
ascending sorted permutation `s` of the input, it returns `s[n/2]` for odd `n`
and the average of `s[n/2 - 1]` and `s[n/2]` for even `n`. -/
theorem median_eq_sort_rule (l : List ℚ) (hl : l ≠ []) (s : List ℚ)
    (hperm : s ~ l) (hsort : s.Sorted (· ≤ ·)) :
    median l =
      if l.length % 2 = 0
      then (s.getD (l.length / 2) default + s.getD (l.length / 2 - 1) default) / 2
      else s.getD (l.length / 2) default := by
  have hsel : selection_sort l = s :=
    List.eq_of_perm_of_sorted ((selection_sort_perm l).trans hperm.symm)
      (selection_sort_sorted l) hsort
  simp only [median, hsel, if_pos (List.length_pos.mpr hl)]

/-- Witness for the supporting fact at `[1,2,3,4]` with sorted permutation
`[1,2,3,4]`. -/
theorem median_eq_sort_rule_witness :
    (([1, 2, 3, 4] : List ℚ) ≠ [] ∧ ([1, 2, 3, 4] : List ℚ) ~ [1, 2, 3, 4] ∧
      ([1, 2, 3, 4] : List ℚ).Sorted (· ≤ ·)) ∧
    median ([1, 2, 3, 4] : List ℚ) =
      (if ([1, 2, 3, 4] : List ℚ).length % 2 = 0
        then (([1, 2, 3, 4] : List ℚ).getD (([1, 2, 3, 4] : List ℚ).length / 2) default +
          ([1, 2, 3, 4] : List ℚ).getD (([1, 2, 3, 4] : List ℚ).length / 2 - 1) default) / 2
        else ([1, 2, 3, 4] : List ℚ).getD (([1, 2, 3, 4] : List ℚ).length / 2) default) :=
  ⟨⟨by decide, List.Perm.refl _, by decide⟩,
    median_eq_sort_rule [1, 2, 3, 4] (by decide) [1, 2, 3, 4] (List.Perm.refl _) (by decide)⟩

/-! ### Claim C2 -/

/-- C2: the signal mask is **not** restored to its pre-run value.  Starting
from an empty mask, after any of the four runner macros every signal is
blocked: each macro ends by calling `block_all_signals_in_this_thread` a
second time — while printing `Unblocking signals in current thread!` — and
the actual `unblock_all_signals_in_this_thread`, which no macro ever calls,
would unblock nothing anyway, since it passes an **empty** set to
`SIG_UNBLOCK`. -/
theorem signal_mask_not_restored :
    (benchmark_func_pinned_sys 3 exampleState).sigmask = Finset.univ ∧
    (benchmark_func_sys exampleState).sigmask = Finset.univ ∧
    (benchmark_func_pinned_cycles_sys 3 exampleState).sigmask = Finset.univ ∧
    (benchmark_func_cycles_sys exampleState).sigmask = Finset.univ ∧
    (unblock_all_signals_in_this_thread
      { exampleState with sigmask := Finset.univ }).sigmask = Finset.univ ∧
    (Finset.univ : Finset (Fin 64)) ≠ exampleState.sigmask := by
  refine ⟨?_, ?_, ?_, ?_, ?_, ?_⟩ <;>
    simp [benchmark_func_pinned_sys, benchmark_func_pinned_cycles_sys,
      benchmark_func_sys, benchmark_func_cycles_sys,
      block_all_signals_in_this_thread, unblock_all_signals_in_this_thread,
      disable_cpu_scaling, enable_cpu_scaling, sched_setaffinity, sched_setscheduler,
      exampleState]
  decide

/-! ### Claim C3 -/

/-- C3 counterexample: aggregating the record with samples `[5,1,4,2,3]` and
miss rates `[4,1,3,2,0]` overwrites both stored sequences with their
ascending sorts: afterwards they are not element-for-element equal to their
prior contents — the median sorts in place, no copy is taken. -/
theorem calculate_stats_mutates_sequences :
    (calculate_stats exampleResult).map BenchmarkResult.samples = some [1, 2, 3, 4, 5] ∧
    (calculate_stats exampleResult).map BenchmarkResult.cache_miss_rates =
      some [0, 1, 2, 3, 4] ∧
    some ([1, 2, 3, 4, 5] : List ℕ) ≠ some [5, 1, 4, 2, 3] ∧
    some ([0, 1, 2, 3, 4] : List ℚ) ≠ some [4, 1, 3, 2, 0] := by
  refine ⟨rfl, rfl, by decide, by decide⟩

/-- C3 (amended): aggregation keeps the elements of the two sequences but not
their order: for every record with non-empty sequences, `calculate_stats`
succeeds and replaces each stored sequence by the ascending sort of its
previous contents — a permutation, reordered in place rather than computed on
a copy. -/
theorem calculate_stats_sorts_in_place (r : BenchmarkResult)
    (h1 : r.samples ≠ []) (h2 : r.cache_miss_rates ≠ []) :
    ∃ r', calculate_stats r = some r' ∧
      r'.samples ~ r.samples ∧ r'.samples.Sorted (· ≤ ·) ∧
      r'.cache_miss_rates ~ r.cache_miss_rates ∧
      r'.cache_miss_rates.Sorted (· ≤ ·) := by
  have hs : selection_sort r.samples ≠ [] := selection_sort_ne_nil _ h1
  have hc : selection_sort r.cache_miss_rates ≠ [] := selection_sort_ne_nil _ h2
  obtain ⟨mmT, hmmT⟩ := Option.isSome_iff_exists.mp (minmax_scan_isSome _ hs)
  obtain ⟨mmC, hmmC⟩ := Option.isSome_iff_exists.mp (minmax_scan_isSome _ hc)
  have heq : calculate_stats r = some
      { r with
        samples := selection_sort r.samples
        cache_miss_rates := selection_sort r.cache_miss_rates
        median_time := median_u64 r.samples
        mean_time := mean ((selection_sort r.samples).map (fun x => (x : ℚ)))
        stddev_time_sq := stddev_sq ((selection_sort r.samples).map (fun x => (x : ℚ)))
        median_cmr := median r.cache_miss_rates
        mean_cmr := mean (selection_sort r.cache_miss_rates)
        stddev_cmr_sq := stddev_sq (selection_sort r.cache_miss_rates)
        min_time := mmT.1
        max_time := mmT.2
        min_cmr := mmC.1
        max_cmr := mmC.2 } := by
    simp only [calculate_stats]
    rw [hmmT, hmmC]
  exact ⟨_, heq, selection_sort_perm _, selection_sort_sorted _,
    selection_sort_perm _, selection_sort_sorted _⟩

/-- Witness for C3 (amended) at the concrete record `exampleResult`. -/
theorem calculate_stats_sorts_in_place_witness :
    (exampleResult.samples ≠ [] ∧ exampleResult.cache_miss_rates ≠ []) ∧
    ∃ r', calculate_stats exampleResult = some r' ∧
      r'.samples ~ exampleResult.samples ∧ r'.samples.Sorted (· ≤ ·) ∧
      r'.cache_miss_rates ~ exampleResult.cache_miss_rates ∧
      r'.cache_miss_rates.Sorted (· ≤ ·) :=
  ⟨⟨by decide, by decide⟩,
    calculate_stats_sorts_in_place exampleResult (by decide) (by decide)⟩

/-! ### Claim C5 -/

/-- C5: not every runner variant fills both sequences.  With two timed
iterations, measured latencies 10 and 11, cycle readings giving wrapped deltas
60 with overhead 4, and measured miss rate `1/2`: `BENCHMARK_FUNC` and
`BENCHMARK_FUNC_CYCLES` fill `samples` but take no cache measurements and
leave the stale `cache_miss_rates = [7,7]` untouched; `BENCHMARK_FUNC_PINNED`
measures the rates but writes them into a caller-scope array (second
component) and also leaves `results->cache_miss_rates` untouched. -/
theorem miss_rates_not_filled :
    (benchmark_func_run (fun i => 10 + i) exampleBenchmark staleResult).samples = [10, 11] ∧
    (benchmark_func_run (fun i => 10 + i) exampleBenchmark staleResult).cache_miss_rates
      = [7, 7] ∧
    (benchmark_func_cycles_run (fun _ => 100) (fun _ => 160) 4
      exampleBenchmark staleResult).samples = [56, 56] ∧
    (benchmark_func_cycles_run (fun _ => 100) (fun _ => 160) 4
      exampleBenchmark staleResult).cache_miss_rates = [7, 7] ∧
    (benchmark_func_pinned_cycles_run (fun _ => 100) (fun _ => 160) 4
      exampleBenchmark staleResult).cache_miss_rates = [7, 7] ∧
    (benchmark_func_pinned_run (fun i => 10 + i) (fun _ => 1/2)
      exampleBenchmark staleResult).1.cache_miss_rates = [7, 7] ∧
    (benchmark_func_pinned_run (fun i => 10 + i) (fun _ => 1/2)
      exampleBenchmark staleResult).2 = [1/2, 1/2] ∧
    ([7, 7] : List ℚ) ≠ [1/2, 1/2] := by
  refine ⟨by decide, rfl, by decide, rfl, rfl, rfl, rfl, by norm_num⟩

/-! ### Claim C6 -/

/-- C6: every runner macro leaves the thread's CPU-affinity mask, scheduler
policy and priority equal to their pre-run values, for every initial state and
core: the pinned macros save and restore them inside the macro itself, before
returning (so before any later — possibly failing — statistics computation
runs), and the unpinned macros never touch them. -/
theorem affinity_and_scheduler_restored (core : ℕ) (s : SysState) :
    ((benchmark_func_pinned_sys core s).affinity = s.affinity ∧
      (benchmark_func_pinned_sys core s).policy = s.policy ∧
      (benchmark_func_pinned_sys core s).priority = s.priority) ∧
    ((benchmark_func_pinned_cycles_sys core s).affinity = s.affinity ∧
      (benchmark_func_pinned_cycles_sys core s).policy = s.policy ∧
      (benchmark_func_pinned_cycles_sys core s).priority = s.priority) ∧
    ((benchmark_func_sys s).affinity = s.affinity ∧
      (benchmark_func_sys s).policy = s.policy ∧
      (benchmark_func_sys s).priority = s.priority) ∧
    ((benchmark_func_cycles_sys s).affinity = s.affinity ∧
      (benchmark_func_cycles_sys s).policy = s.policy ∧
      (benchmark_func_cycles_sys s).priority = s.priority) :=
  ⟨⟨rfl, rfl, rfl⟩, ⟨rfl, rfl, rfl⟩, ⟨rfl, rfl, rfl⟩, ⟨rfl, rfl, rfl⟩⟩

/-! ### Claim C7 -/

/-- C7: with zero samples every guarded statistic returns zero without
attempting a division — `median`, `mean` and the stddev radicand of
`src/include/stats.h`, and likewise the integer `mean` and `median` of
`src/stats.h` — but the aggregation as a whole is **not** access-free: the
min/max scan of `calculate_stats` unconditionally reads element 0 of the
empty arrays (undefined behavior, modelled as `none`), so its min/max outputs
are not the claimed zeros. -/
theorem stats_on_empty_input :
    median ([] : List ℚ) = 0 ∧ median_u64 [] = 0 ∧ mean [] = 0 ∧ stddev_sq [] = 0 ∧
    StatsH.mean [] = 0 ∧ StatsH.median [] = some 0 ∧
    minmax_scan ([] : List ℕ) = none ∧
    calculate_stats emptyResult = none := by
  refine ⟨by decide, by decide, by decide, by decide, by decide, by decide, by decide, by decide⟩

/-! ### Claim C4 -/

/-- C4 counterexample: exporting a result whose single iteration has miss rate
`1/3` writes the row `7,0.33` (the `%0.2f` format); re-parsing yields
`(7, 33/100)`, not the original `(7, 1/3)` — the export is lossy in the
miss-rate column. -/
theorem to_csv_not_lossless :
    (to_csv_record lossyBenchmark lossyData).rows = [(7, 33 / 100)] ∧
    (to_csv_record lossyBenchmark lossyData).rows ≠ [(7, 1 / 3)] := by
  have h : (to_csv_record lossyBenchmark lossyData).rows = [(7, fmt2 (1 / 3))] := rfl
  have h2 : fmt2 (1 / 3) = 33 / 100 := by rw [fmt2]; norm_num
  refine ⟨by rw [h, h2], ?_⟩
  rw [h, h2]
  intro hc
  have : (33 / 100 : ℚ) = 1 / 3 := by
    have := List.head_eq_of_cons_eq hc
    exact congrArg Prod.snd this
  norm_num at this

/-- Helper for C4: the per-iteration rows equal the zip of the samples with
the 2-decimal-rounded miss rates. -/
theorem rows_eq_zip (s : List ℕ) :
    ∀ c : List ℚ, s.length = c.length →
      (List.range s.length).map (fun i => (s.getD i 0, fmt2 (c.getD i 0))) =
        s.zip (c.map fmt2) := by
  induction s with
  | nil => intro c h; simp
  | cons a s' ih =>
    intro c h
    rcases c with _ | ⟨b, c'⟩
    · simp at h
    · have h' : s'.length = c'.length := by simpa using h
      rw [List.length_cons, List.range_succ_eq_map, List.map_cons, List.map_map,
        List.map_cons, List.zip_cons_cons]
      exact congrArg (List.cons _) (ih c' h')

/-- C4 (amended): the export preserves the iteration count and order and is
lossless for the latency column, but reproduces the miss-rate column only up
to rounding to two decimal places: re-parsing an exported record yields the
zip of the original samples with the 2-decimal-rounded miss rates, and the
latency sequence alone round-trips exactly. -/
theorem to_csv_round_trip (b : Benchmark) (data : BenchmarkResult)
    (h1 : data.samples.length = b.timed_iterations)
    (h2 : data.cache_miss_rates.length = b.timed_iterations) :
    (to_csv_record b data).rows = data.samples.zip (data.cache_miss_rates.map fmt2) ∧
    (to_csv_record b data).rows.map Prod.fst = data.samples := by
  have hz : (to_csv_record b data).rows =
      data.samples.zip (data.cache_miss_rates.map fmt2) := by
    have hrows : (to_csv_record b data).rows =
        (List.range b.timed_iterations).map
          (fun i => (data.samples.getD i 0, fmt2 (data.cache_miss_rates.getD i 0))) := rfl
    rw [hrows, ← h1]
    exact rows_eq_zip data.samples data.cache_miss_rates (by rw [h1, h2])
  refine ⟨hz, ?_⟩
  rw [hz]
  exact List.map_fst_zip _ _ (by simp [h1, h2])

/-- Witness for C4 (amended) at the one-iteration record `lossyData`. -/
theorem to_csv_round_trip_witness :
    (lossyData.samples.length = lossyBenchmark.timed_iterations ∧
      lossyData.cache_miss_rates.length = lossyBenchmark.timed_iterations) ∧
    ((to_csv_record lossyBenchmark lossyData).rows =
        lossyData.samples.zip (lossyData.cache_miss_rates.map fmt2) ∧
      (to_csv_record lossyBenchmark lossyData).rows.map Prod.fst = lossyData.samples) :=
  ⟨⟨by decide, by decide⟩, to_csv_round_trip lossyBenchmark lossyData (by decide) (by decide)⟩

/-! ### Claim C8 -/

/-- C8 counterexample: a miss-counter reading of 2 with an access-counter
reading of 1 — readings the hardware can deliver, since the two events are
counted by independent counters — yields rate 200, outside `[0,100]`: the code
does not clamp. -/
theorem miss_rate_above_100 :
    stop_l1_cache_miss_counter 1 2 = 200 ∧ ¬ stop_l1_cache_miss_counter 1 2 ≤ 100 := by
  have h : stop_l1_cache_miss_counter 1 2 = 200 := by
    rw [stop_l1_cache_miss_counter]
    norm_num
  exact ⟨h, by rw [h]; norm_num⟩

/-- C8 (amended): the rate is exactly 0 when the access count is 0, and lies
in `[0, 100]` whenever the counter readings satisfy `0 ≤ misses ≤ accesses`;
the unclamped formula exceeds 100 only for readings with more misses than
accesses. -/
theorem miss_rate_in_range (refs misses : ℤ) (h0 : 0 ≤ misses) (h1 : misses ≤ refs) :
    stop_l1_cache_miss_counter 0 misses = 0 ∧
    0 ≤ stop_l1_cache_miss_counter refs misses ∧
    stop_l1_cache_miss_counter refs misses ≤ 100 := by
  refine ⟨by rw [stop_l1_cache_miss_counter]; simp, ?_, ?_⟩ <;>
    rw [stop_l1_cache_miss_counter]
  · split
    · exact le_refl 0
    · next hne =>
      have hr : (0 : ℚ) < (refs : ℚ) := by
        exact_mod_cast lt_of_le_of_ne (le_trans h0 h1) (Ne.symm hne)
      have hm : (0 : ℚ) ≤ (misses : ℚ) := by exact_mod_cast h0
      exact div_nonneg (by positivity) hr.le
  · split
    · norm_num
    · next hne =>
      have hr : (0 : ℚ) < (refs : ℚ) := by
        exact_mod_cast lt_of_le_of_ne (le_trans h0 h1) (Ne.symm hne)
      rw [div_le_iff₀ hr]
      have hm : (misses : ℚ) ≤ (refs : ℚ) := by exact_mod_cast h1
      nlinarith

/-- Witness for C8 (amended) at readings `accesses = 4`, `misses = 1`. -/
theorem miss_rate_in_range_witness :
    ((0 : ℤ) ≤ 1 ∧ (1 : ℤ) ≤ 4) ∧
    (stop_l1_cache_miss_counter 0 1 = 0 ∧
      0 ≤ stop_l1_cache_miss_counter 4 1 ∧
      stop_l1_cache_miss_counter 4 1 ≤ 100) :=
  ⟨⟨by decide, by decide⟩, miss_rate_in_range 4 1 (by decide) (by decide)⟩

/-! ### Claim C9 -/

/-- C9: the comparative summary reports, for every valid non-baseline entry,
`relative_performance = median_time / baseline_median`, and annotates it with
the inverse ratio as speedup exactly when the ratio is below 1; in particular
a candidate median of 50 against a baseline median of 100 is reported with
relative performance `0.5` and speedup `2.0`. -/
theorem relative_performance_rule (b : Benchmark) (data : BenchmarkResult) (bm : ℕ)
    (hres : b.results = some data) (hvalid : b.is_valid = true)
    (hbase : b.is_baseline = false) :
    summary_line b bm = some
      { name := b.name
        median_time := data.median_time
        relative_performance := (data.median_time : ℚ) / (bm : ℚ)
        speedup :=
          if (data.median_time : ℚ) / (bm : ℚ) < 1
          then some (1 / ((data.median_time : ℚ) / (bm : ℚ))) else none } ∧
    summary_line candidateBenchmark 100 = some
      { name := candidateBenchmark.name
        median_time := 50
        relative_performance := 1 / 2
        speedup := some 2 } := by
  constructor
  · simp only [summary_line, hres, hvalid, hbase]
    by_cases hlt : (data.median_time : ℚ) / (bm : ℚ) < 1
    · simp [hlt]
    · simp [hlt]
  · simp only [summary_line, candidateBenchmark, candidateData, emptyResult]
    norm_num

/-- Witness for C9 at the concrete candidate (median 50, baseline median 100). -/
theorem relative_performance_rule_witness :
    (candidateBenchmark.results = some candidateData ∧
      candidateBenchmark.is_valid = true ∧ candidateBenchmark.is_baseline = false) ∧
    summary_line candidateBenchmark 100 = some
      { name := candidateBenchmark.name
        median_time := 50
        relative_performance := 1 / 2
        speedup := some 2 } :=
  ⟨⟨rfl, rfl, rfl⟩,
    (relative_performance_rule candidateBenchmark candidateData 100 rfl rfl rfl).2⟩

/-! ### Claim C10 -/

theorem u64_sub_lt (a b : ℕ) : u64_sub a b < 2 ^ 64 :=
  Nat.mod_lt _ (by norm_num)

/-- Value of a wrapped `uint64_t` subtraction when the minuend is smaller. -/
theorem u64_sub_of_lt {a b : ℕ} (ha : a < 2 ^ 64) (hb : b < 2 ^ 64) (h : a < b) :
    u64_sub a b = 2 ^ 64 - (b - a) := by
  rw [u64_sub, Nat.mod_eq_of_lt (by omega)]
  omega

theorem samples_getD_cycles (cs ce : ℕ → ℕ) (overhead : ℕ) (b : Benchmark)
    (r : BenchmarkResult) (i : ℕ) (hi : i < b.timed_iterations) :
    (benchmark_func_cycles_run cs ce overhead b r).samples.getD i 0 =
      u64_sub (u64_sub (ce i) (cs i)) overhead := by
  have hsamp : (benchmark_func_cycles_run cs ce overhead b r).samples =
      (List.range b.timed_iterations).map
        (fun i => u64_sub (u64_sub (ce i) (cs i)) overhead) := rfl
  rw [hsamp, List.getD_eq_getElem _ _ (by simpa using hi)]
  simp

/-- C10: in cycle-count mode iteration `i` stores
`(end - start) - cycle_count_overhead` computed in unsigned 64-bit modular
arithmetic; whenever the raw wrapped counter delta is smaller than the
pre-computed overhead constant, the stored latency wraps modulo `2^64` to
`2^64 - (overhead - delta)` — within `overhead` of `2^64` — instead of a small
or zero value. -/
theorem cycle_sample_wraps (cs ce : ℕ → ℕ) (overhead : ℕ) (b : Benchmark)
    (r : BenchmarkResult) (i : ℕ) (hi : i < b.timed_iterations)
    (hov : overhead < 2 ^ 64)
    (hdelta : u64_sub (ce i) (cs i) < overhead) :
    (benchmark_func_cycles_run cs ce overhead b r).samples.getD i 0 =
      2 ^ 64 - (overhead - u64_sub (ce i) (cs i)) ∧
    2 ^ 64 - overhead ≤ (benchmark_func_cycles_run cs ce overhead b r).samples.getD i 0 := by
  have hd := samples_getD_cycles cs ce overhead b r i hi
  have hlt : u64_sub (ce i) (cs i) < 2 ^ 64 := u64_sub_lt _ _
  have heq : u64_sub (u64_sub (ce i) (cs i)) overhead =
      2 ^ 64 - (overhead - u64_sub (ce i) (cs i)) :=
    u64_sub_of_lt hlt hov hdelta
  refine ⟨by rw [hd, heq], ?_⟩
  rw [hd, heq]
  omega

/-- Witness for C10: cycle readings 100 → 102 (wrapped delta 2) with overhead
4 store `2^64 - 2`. -/
theorem cycle_sample_wraps_witness :
    (0 < exampleBenchmark.timed_iterations ∧ (4 : ℕ) < 2 ^ 64 ∧
      u64_sub 102 100 < 4) ∧
    ((benchmark_func_cycles_run (fun _ => 100) (fun _ => 102) 4 exampleBenchmark
        staleResult).samples.getD 0 0 = 2 ^ 64 - (4 - u64_sub 102 100) ∧
      2 ^ 64 - 4 ≤ (benchmark_func_cycles_run (fun _ => 100) (fun _ => 102) 4
        exampleBenchmark staleResult).samples.getD 0 0) :=
  ⟨⟨by decide, by decide, by decide⟩,
    cycle_sample_wraps (fun _ => 100) (fun _ => 102) 4 exampleBenchmark staleResult 0
      (by decide) (by decide) (by decide)⟩

end PiBench
